import Mathlib

/-!
Verification of the io-redirect crate (src/lib.rs) against its specification.

The development shallowly embeds the crate's redirect operations over explicit
models of the OS facilities they call:

* a POSIX-style descriptor table (`SysState`) with `dup2`, `openPath` (the model
  of `OpenOptions::open`) and `closeFd` (the model of dropping a `File`);
* a Windows C-runtime descriptor table (`CrtState`) with `open_osfhandle`,
  a handle-duplicating `crtDup2` and `get_osfhandle`;
* the Windows process-wide standard-handle slots (`WinConsoleState`) with
  `SetStdHandle`.

The crate's own functions — the blanket Unix `Redirectable` impl
(`unixRedirect`), `redirect_fd_to_fd`, the `Redirectable<Path>` adapter
(`redirectToPath`), `redirect_std_to_path`, the Windows libc backend for `File`
(`winFileRedirect`) and `redirect_using_setstdhandle` — are translated
line by line from src/lib.rs.  Errors are the OS errno / last-error values,
modelled as integers; `io::Error::last_os_error()` is reading the state's
errno field.  Paths are opaque identifiers, modelled as naturals.
-/

set_option autoImplicit false

namespace IoRedirect

/-- A POSIX file descriptor (the crate's `Descriptor = RawFd` on Unix). -/
abbrev Fd := Int

/-- An identity for an open kernel I/O object. -/
abbrev ObjId := Nat

/-- The errno value ENOENT (no such file or directory). -/
def ENOENT : Int := 2

/-- The errno value EBADF (bad file descriptor). -/
def EBADF : Int := 9

/-- The errno value EMFILE (too many open files). -/
def EMFILE : Int := 24

/-- An OS state for the Unix model: the per-process descriptor table (a partial
map from descriptor numbers to kernel object identities), the descriptor limit
`maxFd` (descriptors must lie in `[0, maxFd)`, as for `RLIMIT_NOFILE`), a
fresh-descriptor counter and a fresh-object counter, the file system (a map
from paths to contents), and the thread's errno. -/
structure SysState where
  table : Fd → Option ObjId
  maxFd : Int
  nextFd : Fd
  nextObj : ObjId
  fs : List (Nat × List Nat)
  errno : Int

/-- Functional update of a descriptor table at one slot. -/
def updateFd (t : Fd → Option ObjId) (fd : Fd) (v : Option ObjId) : Fd → Option ObjId :=
  fun e => if e = fd then v else t e

/-- Replace (or create) the file stored at path `p`. -/
def setFile (fs : List (Nat × List Nat)) (p : Nat) (c : List Nat) :
    List (Nat × List Nat) :=
  (p, c) :: fs.filter (fun q => q.1 != p)

/-- Model of the POSIX `dup2(oldfd, newfd)` syscall: fails with EBADF when
`oldfd` is not open or `newfd` is outside the descriptor range; otherwise the
slot `newfd` is atomically re-pointed at `oldfd`'s kernel object (closing
whatever `newfd` referenced) and `newfd` is returned. -/
def dup2 (oldfd newfd : Fd) (st : SysState) : Int × SysState :=
  match st.table oldfd with
  | none => (-1, { st with errno := EBADF })
  | some obj =>
      if newfd < 0 ∨ st.maxFd ≤ newfd then (-1, { st with errno := EBADF })
      else (newfd, { st with table := updateFd st.table newfd (some obj) })

/-- Model of `io::Error::last_os_error()`: the current errno. -/
def lastOsError (st : SysState) : Int := st.errno

/-- Translation of `libc_common::redirect_fd_to_fd` (src/lib.rs:213-224): call
`dup2(dst, src)` and surface `last_os_error()` when the result is negative. -/
def redirect_fd_to_fd (src dst : Fd) (st : SysState) : Except Int Unit × SysState :=
  let r := dup2 dst src st
  if r.1 < 0 then (Except.error (lastOsError r.2), r.2)
  else (Except.ok (), r.2)

/-- A Unix stream-like value satisfying the `Descriptable` capability trait: it
exposes a raw descriptor; `payload` stands for all its other fields, which the
redirect code never inspects. -/
structure UnixEndpoint where
  rawFd : Fd
  payload : Nat
deriving DecidableEq

/-- Model of `AsRawFd::as_raw_fd`. -/
def as_raw_fd (e : UnixEndpoint) : Fd := e.rawFd

/-- Translation of the blanket Unix impl of `Redirectable` (src/lib.rs:110-116):
read both raw descriptors and call `redirect_fd_to_fd`.  The impl takes
`&mut self` but never writes through it, so the (unchanged) receiver is
returned alongside the result and the new OS state. -/
def unixRedirect (self : UnixEndpoint) (destination : UnixEndpoint) (st : SysState) :
    UnixEndpoint × (Except Int Unit × SysState) :=
  let src_fd := as_raw_fd self
  let dst_fd := as_raw_fd destination
  (self, redirect_fd_to_fd src_fd dst_fd st)

/-- Model of `std::fs::OpenOptions` flags. -/
structure OpenOptions where
  read : Bool
  write : Bool
  append : Bool
  truncate : Bool
  create : Bool
deriving DecidableEq

/-- Model of `OpenOptions::new()`: every flag off. -/
def OpenOptions.new : OpenOptions :=
  { read := false, write := false, append := false, truncate := false, create := false }

/-- Model of the `.read(b)` builder method. -/
def OpenOptions.setRead (o : OpenOptions) (b : Bool) : OpenOptions := { o with read := b }

/-- Model of the `.write(b)` builder method. -/
def OpenOptions.setWrite (o : OpenOptions) (b : Bool) : OpenOptions := { o with write := b }

/-- Model of the `.append(b)` builder method. -/
def OpenOptions.setAppend (o : OpenOptions) (b : Bool) : OpenOptions := { o with append := b }

/-- Model of the `.create(b)` builder method. -/
def OpenOptions.setCreate (o : OpenOptions) (b : Bool) : OpenOptions := { o with create := b }

/-- Model of `OpenOptions::open`: allocate the next free descriptor (EMFILE at
the limit); an existing file is truncated exactly when the `truncate` flag is
set; a missing file is created empty when `create` is set and fails with
ENOENT otherwise.  On success a fresh kernel object backs the new
descriptor. -/
def openPath (opts : OpenOptions) (p : Nat) (st : SysState) :
    Except Int Fd × SysState :=
  let fd := st.nextFd
  if st.maxFd ≤ fd then (Except.error EMFILE, { st with errno := EMFILE })
  else
    match st.fs.lookup p with
    | some _ =>
        let fs1 := if opts.truncate then setFile st.fs p [] else st.fs
        (Except.ok fd,
         { st with table := updateFd st.table fd (some st.nextObj),
                   nextFd := fd + 1, nextObj := st.nextObj + 1, fs := fs1 })
    | none =>
        if opts.create then
          (Except.ok fd,
           { st with table := updateFd st.table fd (some st.nextObj),
                     nextFd := fd + 1, nextObj := st.nextObj + 1,
                     fs := setFile st.fs p [] })
        else (Except.error ENOENT, { st with errno := ENOENT })

/-- Model of dropping a `std::fs::File`: its descriptor is closed. -/
def closeFd (fd : Fd) (st : SysState) : SysState :=
  { st with table := updateFd st.table fd none }

/-- The open options built by the `Redirectable<Path>` adapter
(src/lib.rs:237): `read(false).write(true).create(true).append(true)`. -/
def pathAdapterOptions : OpenOptions :=
  (((OpenOptions.new.setRead false).setWrite true).setCreate true).setAppend true

/-- Translation of the `Redirectable<Path>` adapter (src/lib.rs:235-244),
instantiated at the Unix platform impl: open the path, run the inner redirect,
`mem::forget` the freshly opened `File` on success (its descriptor stays
open), and drop it (closing its descriptor) on failure. -/
def redirectToPath (self : UnixEndpoint) (destination : Nat) (st : SysState) :
    UnixEndpoint × (Except Int Unit × SysState) :=
  let o := openPath pathAdapterOptions destination st
  match o.1 with
  | Except.error e => (self, (Except.error e, o.2))
  | Except.ok fd =>
      let result := redirect_fd_to_fd (as_raw_fd self) fd o.2
      match result.1 with
      | Except.ok _ => (self, (Except.ok (), result.2))
      | Except.error e => (self, (Except.error e, closeFd fd result.2))

/-- The raw descriptor of `std::io::Stdout` on Unix. -/
def STDOUT_FILENO : Fd := 1

/-- The raw descriptor of `std::io::Stderr` on Unix. -/
def STDERR_FILENO : Fd := 2

/-- The open options built by `redirect_std_to_path` (src/lib.rs:257):
`read(false).write(true).create(true).append(append)`. -/
def stdToPathOptions (append : Bool) : OpenOptions :=
  (((OpenOptions.new.setRead false).setWrite true).setCreate true).setAppend append

/-- Translation of `redirect_std_to_path` (src/lib.rs:256-262), instantiated at
the Unix platform impl: open the path once, redirect stdout then stderr to the
opened `File` (each `?` drops — hence closes — the `File` on failure), and
`mem::forget` it when both redirects succeed. -/
def redirect_std_to_path (destination : Nat) (append : Bool) (st : SysState) :
    Except Int Unit × SysState :=
  let o := openPath (stdToPathOptions append) destination st
  match o.1 with
  | Except.error e => (Except.error e, o.2)
  | Except.ok fd =>
      let r1 := redirect_fd_to_fd STDOUT_FILENO fd o.2
      match r1.1 with
      | Except.error e => (Except.error e, closeFd fd r1.2)
      | Except.ok _ =>
          let r2 := redirect_fd_to_fd STDERR_FILENO fd r1.2
          match r2.1 with
          | Except.error e => (Except.error e, closeFd fd r2.2)
          | Except.ok _ => (Except.ok (), r2.2)

/-- A Windows native handle, modelled as an integer. -/
abbrev Handle := Int

/-- An OS state for the Windows C-runtime model: the CRT descriptor table
mapping CRT descriptors to native handles, a fresh-descriptor counter with its
limit, the set of currently valid native handles, a fresh-handle counter (the
CRT's `dup2` duplicates the underlying native handle, producing a fresh one),
and the CRT errno. -/
structure CrtState where
  fdTable : Int → Option Handle
  nextFd : Int
  maxFd : Int
  validHandles : List Handle
  nextHandle : Handle
  errno : Int

/-- Model of the CRT `_open_osfhandle`: bridge a native handle into a fresh
CRT descriptor-table slot; fails with EBADF on an invalid handle and EMFILE
when the table is full. -/
def open_osfhandle (h : Handle) (st : CrtState) : Int × CrtState :=
  if st.validHandles.contains h then
    if st.maxFd ≤ st.nextFd then (-1, { st with errno := EMFILE })
    else (st.nextFd,
          { st with fdTable := fun e => if e = st.nextFd then some h else st.fdTable e,
                    nextFd := st.nextFd + 1 })
  else (-1, { st with errno := EBADF })

/-- Model of the CRT `_dup2(oldfd, newfd)` on Windows: fails with EBADF when
`oldfd` is not bridged or `newfd` is out of range; otherwise the underlying
native handle is duplicated (`DuplicateHandle` yields a fresh handle value —
the quirk noted at src/lib.rs:216-217) and `newfd`'s slot is re-pointed at the
duplicate. -/
def crtDup2 (oldfd newfd : Int) (st : CrtState) : Int × CrtState :=
  match st.fdTable oldfd with
  | none => (-1, { st with errno := EBADF })
  | some _ =>
      if newfd < 0 ∨ st.maxFd ≤ newfd then (-1, { st with errno := EBADF })
      else
        (newfd,
         { st with fdTable := fun e => if e = newfd then some st.nextHandle else st.fdTable e,
                   validHandles := st.nextHandle :: st.validHandles,
                   nextHandle := st.nextHandle + 1 })

/-- Translation of `libc_common::redirect_fd_to_fd` (src/lib.rs:213-224) at the
Windows CRT descriptor type: call `dup2(dst, src)` and surface the errno when
the result is negative. -/
def crtRedirectFdToFd (src dst : Int) (st : CrtState) : Except Int Unit × CrtState :=
  let r := crtDup2 dst src st
  if r.1 < 0 then (Except.error r.2.errno, r.2)
  else (Except.ok (), r.2)

/-- Model of the CRT `_get_osfhandle`: the native handle backing a CRT
descriptor, or -1 with errno EBADF when the descriptor is not open. -/
def get_osfhandle (fd : Int) (st : CrtState) : Handle × CrtState :=
  match st.fdTable fd with
  | none => (-1, { st with errno := EBADF })
  | some h => (h, st)

/-- A `std::fs::File` on Windows: its embedded raw native handle (the field the
libc backend patches in place) and its remaining fields. -/
structure WinFile where
  rawHandle : Handle
  payload : Nat
deriving DecidableEq

/-- A Windows stream-like value satisfying the `Descriptable` capability trait:
it exposes a raw native handle. -/
structure WinEndpoint where
  rawHandle : Handle
  payload : Nat
deriving DecidableEq

/-- Model of `AsRawHandle::as_raw_handle`. -/
def as_raw_handle (e : WinEndpoint) : Handle := e.rawHandle

/-- Translation of the Windows libc backend impl of `Redirectable` for `File`
(src/lib.rs:138-167): bridge the source handle, bridge the destination handle,
run the descriptor-level duplication, retrieve the new native handle behind
the bridged source slot — returning `last_os_error()` immediately if any of
these fails — and only then patch the `File`'s embedded handle field. -/
def winFileRedirect (self : WinFile) (destination : WinEndpoint) (st : CrtState) :
    WinFile × (Except Int Unit × CrtState) :=
  let src_handle := self.rawHandle
  let dst_handle := as_raw_handle destination
  let r1 := open_osfhandle src_handle st
  if r1.1 < 0 then (self, (Except.error r1.2.errno, r1.2))
  else
    let r2 := open_osfhandle dst_handle r1.2
    if r2.1 < 0 then (self, (Except.error r2.2.errno, r2.2))
    else
      let r3 := crtRedirectFdToFd r1.1 r2.1 r2.2
      match r3.1 with
      | Except.error e => (self, (Except.error e, r3.2))
      | Except.ok _ =>
          let r4 := get_osfhandle r1.1 r3.2
          if r4.1 < 0 then (self, (Except.error r4.2.errno, r4.2))
          else ({ self with rawHandle := r4.1 }, (Except.ok (), r4.2))

/-- An OS state for the Windows native backend: the three process-wide
standard-handle slots and the thread's last-error code. -/
structure WinConsoleState where
  stdInputSlot : Handle
  stdOutputSlot : Handle
  stdErrorSlot : Handle
  lastError : Int
deriving DecidableEq

/-- The `STD_INPUT_HANDLE` constant, `(DWORD)-10`. -/
def STD_INPUT_HANDLE : Int := 4294967286

/-- The `STD_OUTPUT_HANDLE` constant, `(DWORD)-11`. -/
def STD_OUTPUT_HANDLE : Int := 4294967285

/-- The `STD_ERROR_HANDLE` constant, `(DWORD)-12`. -/
def STD_ERROR_HANDLE : Int := 4294967284

/-- The Win32 error code `ERROR_INVALID_HANDLE`. -/
def ERROR_INVALID_HANDLE : Int := 6

/-- Model of the Win32 `SetStdHandle`: store the handle in the named
process-wide slot and return nonzero; an unknown slot name returns zero with
the last-error code set. -/
def SetStdHandle (nStdHandle : Int) (h : Handle) (st : WinConsoleState) :
    Int × WinConsoleState :=
  if nStdHandle = STD_INPUT_HANDLE then (1, { st with stdInputSlot := h })
  else if nStdHandle = STD_OUTPUT_HANDLE then (1, { st with stdOutputSlot := h })
  else if nStdHandle = STD_ERROR_HANDLE then (1, { st with stdErrorSlot := h })
  else (0, { st with lastError := ERROR_INVALID_HANDLE })

/-- Translation of `redirect_using_setstdhandle` (src/lib.rs:192-199): call
`SetStdHandle` with the destination's raw handle and surface the OS last-error
exactly when it returns zero. -/
def redirect_using_setstdhandle (std_handle : Int) (destination : WinEndpoint)
    (st : WinConsoleState) : Except Int Unit × WinConsoleState :=
  let dst_handle := as_raw_handle destination
  let r := SetStdHandle std_handle dst_handle st
  if r.1 = 0 then (Except.error r.2.lastError, r.2)
  else (Except.ok (), r.2)

/-- Translation of the `Redirectable` impl for `Stdout` in the windows-sys
backend (src/lib.rs:180-184). -/
def stdoutRedirectWin (destination : WinEndpoint) (st : WinConsoleState) :
    Except Int Unit × WinConsoleState :=
  redirect_using_setstdhandle STD_OUTPUT_HANDLE destination st

/-- Translation of the `Redirectable` impl for `Stderr` in the windows-sys
backend (src/lib.rs:186-190). -/
def stderrRedirectWin (destination : WinEndpoint) (st : WinConsoleState) :
    Except Int Unit × WinConsoleState :=
  redirect_using_setstdhandle STD_ERROR_HANDLE destination st

/-- A concrete Unix OS state: descriptor 5 open on object 7, limit 10. -/
def stA : SysState :=
  { table := fun e => if e = 5 then some 7 else none, maxFd := 10, nextFd := 6,
    nextObj := 0, fs := [], errno := 0 }

/-- A concrete Unix OS state whose file system holds contents `[1, 2, 3]` at
path 0. -/
def stB : SysState :=
  { table := fun _ => none, maxFd := 10, nextFd := 3, nextObj := 0,
    fs := [(0, [1, 2, 3])], errno := 0 }

/-- A concrete Unix endpoint exposing raw descriptor 1. -/
def epA : UnixEndpoint := ⟨1, 0⟩

/-- A concrete Unix OS state with an empty file system. -/
def stC : SysState :=
  { table := fun _ => none, maxFd := 10, nextFd := 3, nextObj := 0,
    fs := [], errno := 0 }

/-- A concrete Unix OS state: descriptor 1 open on object 7, next fresh
descriptor 3, next object 5. -/
def stD : SysState :=
  { table := fun e => if e = 1 then some 7 else none, maxFd := 10, nextFd := 3,
    nextObj := 5, fs := [(0, [1, 2, 3])], errno := 0 }

/-- A concrete Unix OS state whose descriptor limit is 2, so exactly descriptors
0 and 1 are usable. -/
def stE : SysState :=
  { table := fun _ => none, maxFd := 2, nextFd := 0, nextObj := 0,
    fs := [], errno := 0 }

/-- A concrete Windows CRT state with no valid native handles. -/
def crt0 : CrtState :=
  { fdTable := fun _ => none, nextFd := 0, maxFd := 10, validHandles := [],
    nextHandle := 100, errno := 0 }

/-- A concrete Windows console state. -/
def wcs0 : WinConsoleState :=
  { stdInputSlot := 10, stdOutputSlot := 11, stdErrorSlot := 12, lastError := 0 }

/-- C1: on Unix, `redirect` performs `dup2(dst, src)`, returns Ok exactly when the
OS duplication succeeds, and on success the source descriptor number aliases the
destination's kernel object (replacing its previous referent) while every other
descriptor slot is untouched. -/
theorem unix_redirect_dup2_spec (self destination : UnixEndpoint) (st : SysState) :
    ((unixRedirect self destination st).2.1 = Except.ok () ↔
      0 ≤ (dup2 (as_raw_fd destination) (as_raw_fd self) st).1) ∧
    ((unixRedirect self destination st).2.1 = Except.ok () →
      (unixRedirect self destination st).2.2.table (as_raw_fd self)
          = st.table (as_raw_fd destination) ∧
      st.table (as_raw_fd destination) ≠ none ∧
      ∀ e, e ≠ as_raw_fd self →
        (unixRedirect self destination st).2.2.table e = st.table e) := by
  unfold unixRedirect redirect_fd_to_fd
  cases hdst : st.table (as_raw_fd destination) with
  | none =>
      simp [dup2, hdst, lastOsError]
  | some obj =>
      by_cases hr : as_raw_fd self < 0 ∨ st.maxFd ≤ as_raw_fd self
      · simp [dup2, hdst, hr, lastOsError]
      · push_neg at hr
        have h0x : ¬ as_raw_fd self < 0 := not_lt.mpr hr.1
        have h1x : ¬ st.maxFd ≤ as_raw_fd self := not_le.mpr hr.2
        simp [dup2, hdst, h0x, h1x, updateFd]
        exact ⟨hr.1, fun e he => by simp [he]⟩

/-- Witness for C1 at a concrete state: descriptor 5 open, redirecting fd 3 to it. -/
theorem unix_redirect_dup2_spec_witness :
    (unixRedirect ⟨3, 0⟩ ⟨5, 0⟩ stA).2.2.table 3 = stA.table 5 ∧
    stA.table 5 ≠ none ∧
    (unixRedirect ⟨3, 0⟩ ⟨5, 0⟩ stA).2.2.table 9 = stA.table 9 :=
  have h := (unix_redirect_dup2_spec ⟨3, 0⟩ ⟨5, 0⟩ stA).2 (by rfl)
  ⟨h.1, h.2.1, h.2.2 9 (by decide)⟩

/-- C10: on Unix the outcome of `redirect` (result and post OS state) is a
function of only the two raw descriptors: endpoints exposing equal descriptors
produce identical outcomes from the same state, and the operation never mutates
the source value. -/
theorem unix_redirect_fd_determined (s1 s2 d1 d2 : UnixEndpoint) (st : SysState)
    (hs : as_raw_fd s1 = as_raw_fd s2) (hd : as_raw_fd d1 = as_raw_fd d2) :
    (unixRedirect s1 d1 st).2 = (unixRedirect s2 d2 st).2 ∧
    (unixRedirect s1 d1 st).1 = s1 ∧
    (unixRedirect s2 d2 st).1 = s2 := by
  refine ⟨?_, rfl, rfl⟩
  show redirect_fd_to_fd (as_raw_fd s1) (as_raw_fd d1) st
      = redirect_fd_to_fd (as_raw_fd s2) (as_raw_fd d2) st
  rw [hs, hd]

/-- Witness for C10: two pairs of endpoints with equal descriptors but different
payloads. -/
theorem unix_redirect_fd_determined_witness :
    (unixRedirect ⟨3, 0⟩ ⟨5, 1⟩ stA).2 = (unixRedirect ⟨3, 2⟩ ⟨5, 3⟩ stA).2 ∧
    (unixRedirect ⟨3, 0⟩ ⟨5, 1⟩ stA).1 = ⟨3, 0⟩ ∧
    (unixRedirect ⟨3, 2⟩ ⟨5, 3⟩ stA).1 = ⟨3, 2⟩ :=
  unix_redirect_fd_determined ⟨3, 0⟩ ⟨3, 2⟩ ⟨5, 1⟩ ⟨5, 3⟩ stA rfl rfl

theorem dup2_fail_bad (oldfd newfd : Fd) (st : SysState)
    (h : st.table oldfd = none) :
    dup2 oldfd newfd st = (-1, { st with errno := EBADF }) := by
  unfold dup2; rw [h]

theorem dup2_fail_range (oldfd newfd : Fd) (st : SysState) (obj : ObjId)
    (h : st.table oldfd = some obj) (h2 : newfd < 0 ∨ st.maxFd ≤ newfd) :
    dup2 oldfd newfd st = (-1, { st with errno := EBADF }) := by
  unfold dup2; rw [h]; simp [h2]

theorem dup2_ok (oldfd newfd : Fd) (st : SysState) (obj : ObjId)
    (h : st.table oldfd = some obj) (h1 : 0 ≤ newfd) (h2 : newfd < st.maxFd) :
    dup2 oldfd newfd st = (newfd, { st with table := updateFd st.table newfd (some obj) }) := by
  unfold dup2; rw [h]
  have hn : ¬ (newfd < 0 ∨ st.maxFd ≤ newfd) := by
    simp only [not_or, not_lt, not_le]
    exact ⟨h1, h2⟩
  simp [hn]

theorem redirect_fd_to_fd_err_bad (src dst : Fd) (st : SysState)
    (h : st.table dst = none) :
    redirect_fd_to_fd src dst st = (Except.error EBADF, { st with errno := EBADF }) := by
  unfold redirect_fd_to_fd
  rw [dup2_fail_bad dst src st h]
  simp [lastOsError]

theorem redirect_fd_to_fd_err_range (src dst : Fd) (st : SysState) (obj : ObjId)
    (h : st.table dst = some obj) (h2 : src < 0 ∨ st.maxFd ≤ src) :
    redirect_fd_to_fd src dst st = (Except.error EBADF, { st with errno := EBADF }) := by
  unfold redirect_fd_to_fd
  rw [dup2_fail_range dst src st obj h h2]
  simp [lastOsError]

theorem redirect_fd_to_fd_ok (src dst : Fd) (st : SysState) (obj : ObjId)
    (h : st.table dst = some obj) (h1 : 0 ≤ src) (h2 : src < st.maxFd) :
    redirect_fd_to_fd src dst st
      = (Except.ok (), { st with table := updateFd st.table src (some obj) }) := by
  unfold redirect_fd_to_fd
  rw [dup2_ok dst src st obj h h1 h2]
  have h3 : ¬ src < 0 := not_lt.mpr h1
  simp [h3]

theorem openPath_fail_emfile (opts : OpenOptions) (p : Nat) (st : SysState)
    (hm : st.maxFd ≤ st.nextFd) :
    openPath opts p st = (Except.error EMFILE, { st with errno := EMFILE }) := by
  unfold openPath; simp [hm]

theorem openPath_ok_existing (opts : OpenOptions) (p : Nat) (st : SysState) (c : List Nat)
    (h : st.fs.lookup p = some c) (hm : ¬ st.maxFd ≤ st.nextFd) :
    openPath opts p st
      = (Except.ok st.nextFd,
         { st with table := updateFd st.table st.nextFd (some st.nextObj),
                   nextFd := st.nextFd + 1, nextObj := st.nextObj + 1,
                   fs := if opts.truncate then setFile st.fs p [] else st.fs }) := by
  unfold openPath; simp [hm, h]

theorem openPath_ok_absent (opts : OpenOptions) (p : Nat) (st : SysState)
    (h : st.fs.lookup p = none) (hc : opts.create = true) (hm : ¬ st.maxFd ≤ st.nextFd) :
    openPath opts p st
      = (Except.ok st.nextFd,
         { st with table := updateFd st.table st.nextFd (some st.nextObj),
                   nextFd := st.nextFd + 1, nextObj := st.nextObj + 1,
                   fs := setFile st.fs p [] }) := by
  unfold openPath; simp [hm, h, hc]

/-- C2 counterexample: with `append = false`, `redirect_std_to_path` succeeds on a
path holding `[1, 2, 3]` and the pre-existing contents are NOT removed — the open
never truncates, refuting the create/truncate half of the claim. -/
theorem redirect_std_to_path_no_truncate_cex :
    (redirect_std_to_path 0 false stB).1 = Except.ok () ∧
    (redirect_std_to_path 0 false stB).2.fs.lookup 0 = some [1, 2, 3] ∧
    (redirect_std_to_path 0 false stB).2.fs.lookup 0 ≠ some [] :=
  ⟨by rfl, by rfl, by decide⟩

theorem rstp_open_err (p : Nat) (a : Bool) (st : SysState) (e : Int) (st1 : SysState)
    (hopen : openPath (stdToPathOptions a) p st = (Except.error e, st1)) :
    redirect_std_to_path p a st = (Except.error e, st1) := by
  unfold redirect_std_to_path
  rw [hopen]

theorem rstp_after_open (p : Nat) (a : Bool) (st st1 : SysState) (fd : Fd)
    (hopen : openPath (stdToPathOptions a) p st = (Except.ok fd, st1)) :
    redirect_std_to_path p a st =
      (let r1 := redirect_fd_to_fd STDOUT_FILENO fd st1
       match r1.1 with
       | Except.error e => (Except.error e, closeFd fd r1.2)
       | Except.ok _ =>
           let r2 := redirect_fd_to_fd STDERR_FILENO fd r1.2
           match r2.1 with
           | Except.error e => (Except.error e, closeFd fd r2.2)
           | Except.ok _ => (Except.ok (), r2.2)) := by
  unfold redirect_std_to_path
  rw [hopen]

/-- C2 (amended): `redirect_std_to_path` opens the path with write and create set
and the append flag as given, never truncate; pre-existing contents of the path
survive the call unchanged. -/
theorem redirect_std_to_path_open_mode (p : Nat) (append : Bool) (st : SysState) :
    (stdToPathOptions append).write = true ∧
    (stdToPathOptions append).create = true ∧
    (stdToPathOptions append).append = append ∧
    (stdToPathOptions append).truncate = false ∧
    ∀ c, st.fs.lookup p = some c →
      (redirect_std_to_path p append st).2.fs.lookup p = some c := by
  refine ⟨rfl, rfl, rfl, rfl, ?_⟩
  intro c hc
  by_cases hm : st.maxFd ≤ st.nextFd
  · rw [rstp_open_err p append st EMFILE _ (openPath_fail_emfile _ p st hm)]
    exact hc
  · have hopen := openPath_ok_existing (stdToPathOptions append) p st c hc hm
    rw [show (if (stdToPathOptions append).truncate = true then setFile st.fs p [] else st.fs)
          = st.fs from rfl] at hopen
    rw [rstp_after_open p append st _ st.nextFd hopen]
    set st1 : SysState :=
      { st with table := updateFd st.table st.nextFd (some st.nextObj),
                nextFd := st.nextFd + 1, nextObj := st.nextObj + 1 } with hst1
    have htab : st1.table st.nextFd = some st.nextObj := by
      simp [hst1, updateFd]
    by_cases h1 : (1 : Int) < st.maxFd
    · rw [redirect_fd_to_fd_ok STDOUT_FILENO st.nextFd st1 st.nextObj htab (by decide) h1]
      dsimp only
      set st2 : SysState :=
        { st with
            table := updateFd (updateFd st.table st.nextFd (some st.nextObj))
              STDOUT_FILENO (some st.nextObj),
            nextFd := st.nextFd + 1, nextObj := st.nextObj + 1 } with hst2
      have htab2 : st2.table st.nextFd = some st.nextObj := by
        simp only [hst2]
        unfold updateFd
        split
        · rfl
        · exact htab
      by_cases h2 : (2 : Int) < st.maxFd
      · rw [redirect_fd_to_fd_ok STDERR_FILENO st.nextFd st2 st.nextObj htab2 (by decide) h2]
        exact hc
      · rw [redirect_fd_to_fd_err_range STDERR_FILENO st.nextFd st2 st.nextObj htab2
            (Or.inr (not_lt.mp h2))]
        exact hc
    · rw [redirect_fd_to_fd_err_range STDOUT_FILENO st.nextFd st1 st.nextObj htab
          (Or.inr (not_lt.mp h1))]
      exact hc

theorem dup2_fs (oldfd newfd : Fd) (st : SysState) :
    ((dup2 oldfd newfd st).2).fs = st.fs := by
  unfold dup2
  cases st.table oldfd
  · rfl
  · dsimp only
    split
    · rfl
    · rfl

theorem redirect_fd_to_fd_fs (src dst : Fd) (st : SysState) :
    ((redirect_fd_to_fd src dst st).2).fs = st.fs := by
  unfold redirect_fd_to_fd
  dsimp only
  split
  · exact dup2_fs dst src st
  · exact dup2_fs dst src st

theorem rtp_open_err (self : UnixEndpoint) (p : Nat) (st : SysState) (e : Int)
    (st1 : SysState)
    (hopen : openPath pathAdapterOptions p st = (Except.error e, st1)) :
    redirectToPath self p st = (self, (Except.error e, st1)) := by
  unfold redirectToPath; rw [hopen]

theorem rtp_after_open (self : UnixEndpoint) (p : Nat) (st st1 : SysState) (fd : Fd)
    (hopen : openPath pathAdapterOptions p st = (Except.ok fd, st1)) :
    redirectToPath self p st =
      (let result := redirect_fd_to_fd (as_raw_fd self) fd st1
       match result.1 with
       | Except.ok _ => (self, (Except.ok (), result.2))
       | Except.error e => (self, (Except.error e, closeFd fd result.2))) := by
  unfold redirectToPath; rw [hopen]

theorem rtp_fs_after_open (self : UnixEndpoint) (p : Nat) (st st1 : SysState) (fd : Fd)
    (hopen : openPath pathAdapterOptions p st = (Except.ok fd, st1)) :
    (redirectToPath self p st).2.2.fs = st1.fs := by
  rw [rtp_after_open self p st st1 fd hopen]
  dsimp only
  split
  · exact redirect_fd_to_fd_fs (as_raw_fd self) fd st1
  · exact redirect_fd_to_fd_fs (as_raw_fd self) fd st1

/-- C3 counterexample: the `Redirectable<Path>` adapter has no truncate variant —
its one open is append-mode, and a successful redirect through it leaves the
existing contents `[1, 2, 3]` in place, refuting the default-truncate half of the
claim. -/
theorem path_adapter_no_truncate_cex :
    pathAdapterOptions.truncate = false ∧
    pathAdapterOptions.append = true ∧
    (redirectToPath epA 0 stB).2.1 = Except.ok () ∧
    (redirectToPath epA 0 stB).2.2.fs.lookup 0 = some [1, 2, 3] ∧
    (redirectToPath epA 0 stB).2.2.fs.lookup 0 ≠ some [] :=
  ⟨rfl, rfl, by rfl, by rfl, by decide⟩

/-- C3 (amended): the path adapter opens the destination for writing, creating the
file (empty) when absent, always in append mode with truncate off; existing
contents are preserved. -/
theorem path_adapter_open_mode (self : UnixEndpoint) (p : Nat) (st : SysState) :
    pathAdapterOptions.read = false ∧
    pathAdapterOptions.write = true ∧
    pathAdapterOptions.create = true ∧
    pathAdapterOptions.append = true ∧
    pathAdapterOptions.truncate = false ∧
    (st.fs.lookup p = none → (redirectToPath self p st).2.1 = Except.ok () →
      (redirectToPath self p st).2.2.fs.lookup p = some []) ∧
    (∀ c, st.fs.lookup p = some c →
      (redirectToPath self p st).2.2.fs.lookup p = some c) := by
  refine ⟨rfl, rfl, rfl, rfl, rfl, ?_, ?_⟩
  · intro habs hok
    by_cases hm : st.maxFd ≤ st.nextFd
    · rw [rtp_open_err self p st EMFILE _ (openPath_fail_emfile _ p st hm)] at hok
      simp at hok
    · have hopen := openPath_ok_absent pathAdapterOptions p st habs rfl hm
      rw [rtp_fs_after_open self p st _ st.nextFd hopen]
      simp [setFile]
  · intro c hc
    by_cases hm : st.maxFd ≤ st.nextFd
    · rw [rtp_open_err self p st EMFILE _ (openPath_fail_emfile _ p st hm)]
      exact hc
    · have hopen := openPath_ok_existing pathAdapterOptions p st c hc hm
      rw [show (if pathAdapterOptions.truncate = true then setFile st.fs p [] else st.fs)
            = st.fs from rfl] at hopen
      rw [rtp_fs_after_open self p st _ st.nextFd hopen]
      exact hc

/-- Witness for C3 (amended): creation of an absent path, and preservation of an
existing one. -/
theorem path_adapter_open_mode_witness :
    stC.fs.lookup 7 = none ∧
    (redirectToPath epA 7 stC).2.1 = Except.ok () ∧
    (redirectToPath epA 7 stC).2.2.fs.lookup 7 = some [] ∧
    stB.fs.lookup 0 = some [1, 2, 3] ∧
    (redirectToPath epA 0 stB).2.2.fs.lookup 0 = some [1, 2, 3] :=
  have h := path_adapter_open_mode epA 7 stC
  have h2 := path_adapter_open_mode epA 0 stB
  ⟨by rfl, by rfl, h.2.2.2.2.2.1 (by rfl) (by rfl), by rfl,
   h2.2.2.2.2.2.2 [1, 2, 3] (by rfl)⟩

/-- Witness for C2 (amended) at a concrete state with contents `[1, 2, 3]`. -/
theorem redirect_std_to_path_open_mode_witness :
    (stdToPathOptions false).truncate = false ∧
    stB.fs.lookup 0 = some [1, 2, 3] ∧
    (redirect_std_to_path 0 false stB).2.fs.lookup 0 = some [1, 2, 3] :=
  have h := redirect_std_to_path_open_mode 0 false stB
  ⟨h.2.2.2.1, by rfl, h.2.2.2.2 [1, 2, 3] (by rfl)⟩

theorem rtp_leak_core (self : UnixEndpoint) (p : Nat) (st st1 : SysState)
    (hopen : openPath pathAdapterOptions p st = (Except.ok st.nextFd, st1))
    (htable : st1.table = updateFd st.table st.nextFd (some st.nextObj))
    (hmax : st1.maxFd = st.maxFd)
    (hfresh : st.table st.nextFd = none)
    (hsrc : st.table (as_raw_fd self) ≠ none) :
    ((redirectToPath self p st).2.1 = Except.ok () →
       (redirectToPath self p st).2.2.table st.nextFd = some st.nextObj ∧
       st.table st.nextFd = none ∧
       (redirectToPath self p st).2.2.table (as_raw_fd self) = some st.nextObj ∧
       (∀ e, e ≠ st.nextFd → e ≠ as_raw_fd self →
         (redirectToPath self p st).2.2.table e = st.table e) ∧
       ∀ e, ((redirectToPath self p st).2.2.table e ≠ none ↔
         (st.table e ≠ none ∨ e = st.nextFd))) ∧
    (∀ err, (redirectToPath self p st).2.1 = Except.error err →
       (redirectToPath self p st).2.2.table st.nextFd = none ∧
       ∀ e, e ≠ st.nextFd →
         (redirectToPath self p st).2.2.table e = st.table e) := by
  have htab1 : st1.table st.nextFd = some st.nextObj := by
    rw [htable]; simp [updateFd]
  have hred := rtp_after_open self p st st1 st.nextFd hopen
  by_cases h1 : 0 ≤ as_raw_fd self ∧ as_raw_fd self < st.maxFd
  · rw [redirect_fd_to_fd_ok (as_raw_fd self) st.nextFd st1 st.nextObj htab1 h1.1
        (by rw [hmax]; exact h1.2)] at hred
    dsimp only at hred
    rw [hred]
    dsimp only
    constructor
    · intro _
      refine ⟨?_, hfresh, ?_, ?_, ?_⟩
      · unfold updateFd
        split
        · rfl
        · rw [htable]; simp [updateFd]
      · simp [updateFd]
      · intro e he1 he2
        unfold updateFd
        rw [if_neg he2, htable]
        unfold updateFd
        rw [if_neg he1]
      · intro e
        unfold updateFd
        by_cases hes : e = as_raw_fd self
        · simp only [hes, if_pos rfl]
          exact ⟨fun _ => Or.inl hsrc, fun _ => by simp⟩
        · rw [if_neg hes, htable]
          unfold updateFd
          by_cases henf : e = st.nextFd
          · simp [henf]
          · simp [henf]
    · intro err h
      simp at h
  · have h2 : as_raw_fd self < 0 ∨ st1.maxFd ≤ as_raw_fd self := by
      rw [hmax]
      rcases not_and_or.mp h1 with h | h
      · exact Or.inl (not_le.mp h)
      · exact Or.inr (not_lt.mp h)
    rw [redirect_fd_to_fd_err_range (as_raw_fd self) st.nextFd st1 st.nextObj htab1 h2] at hred
    dsimp only at hred
    rw [hred]
    dsimp only
    constructor
    · intro h
      simp at h
    · intro err _
      constructor
      · unfold closeFd updateFd
        simp
      · intro e he1
        unfold closeFd updateFd
        simp only [if_neg he1]
        rw [htable]
        unfold updateFd
        rw [if_neg he1]

/-- C4: the path adapter abandons the freshly opened object on success (its
descriptor stays open, aliased into the source: exactly one extra open
descriptor per successful call on an open source), and closes it on failure. -/
theorem path_adapter_leak (self : UnixEndpoint) (p : Nat) (st : SysState)
    (hfresh : st.table st.nextFd = none)
    (hsrc : st.table (as_raw_fd self) ≠ none) :
    ((redirectToPath self p st).2.1 = Except.ok () →
       (redirectToPath self p st).2.2.table st.nextFd = some st.nextObj ∧
       st.table st.nextFd = none ∧
       (redirectToPath self p st).2.2.table (as_raw_fd self) = some st.nextObj ∧
       (∀ e, e ≠ st.nextFd → e ≠ as_raw_fd self →
         (redirectToPath self p st).2.2.table e = st.table e) ∧
       ∀ e, ((redirectToPath self p st).2.2.table e ≠ none ↔
         (st.table e ≠ none ∨ e = st.nextFd))) ∧
    (∀ err, (redirectToPath self p st).2.1 = Except.error err →
       (redirectToPath self p st).2.2.table st.nextFd = none ∧
       ∀ e, e ≠ st.nextFd →
         (redirectToPath self p st).2.2.table e = st.table e) := by
  by_cases hm : st.maxFd ≤ st.nextFd
  · rw [rtp_open_err self p st EMFILE _ (openPath_fail_emfile _ p st hm)]
    dsimp only
    constructor
    · intro h
      simp at h
    · intro err _
      exact ⟨hfresh, fun e _ => rfl⟩
  · cases hfs : st.fs.lookup p with
    | some c =>
        exact rtp_leak_core self p st _
          (openPath_ok_existing pathAdapterOptions p st c hfs hm) rfl rfl hfresh hsrc
    | none =>
        exact rtp_leak_core self p st _
          (openPath_ok_absent pathAdapterOptions p st hfs rfl hm) rfl rfl hfresh hsrc

/-- Witness for C4: a successful adapter call on source fd 1 leaks exactly
descriptor 3. -/
theorem path_adapter_leak_witness :
    stD.table stD.nextFd = none ∧
    stD.table (as_raw_fd epA) ≠ none ∧
    (redirectToPath epA 0 stD).2.1 = Except.ok () ∧
    (redirectToPath epA 0 stD).2.2.table 3 = some 5 ∧
    (redirectToPath epA 0 stD).2.2.table 1 = some 5 ∧
    (redirectToPath epA 0 stD).2.2.table 8 = stD.table 8 :=
  have h := (path_adapter_leak epA 0 stD (by decide) (by decide)).1 (by rfl)
  ⟨by decide, by decide, by rfl, h.1, h.2.2.1, h.2.2.2.1 8 (by decide) (by decide)⟩

theorem rstp_core (p : Nat) (append : Bool) (st st1 : SysState)
    (hopen : openPath (stdToPathOptions append) p st = (Except.ok st.nextFd, st1))
    (htable : st1.table = updateFd st.table st.nextFd (some st.nextObj))
    (hmax : st1.maxFd = st.maxFd) (hnext : st1.nextFd = st.nextFd + 1)
    (hfresh : st.table st.nextFd = none) :
    (st.maxFd ≤ 1 →
       (redirect_std_to_path p append st).1 = Except.error EBADF ∧
       (redirect_std_to_path p append st).2.table STDERR_FILENO = st.table STDERR_FILENO ∧
       (redirect_std_to_path p append st).2.table st.nextFd = none) ∧
    (1 < st.maxFd → st.maxFd ≤ 2 → st.table STDOUT_FILENO ≠ none →
       (redirect_std_to_path p append st).1 = Except.error EBADF ∧
       (redirect_std_to_path p append st).2.table STDOUT_FILENO = some st.nextObj) ∧
    (2 < st.maxFd →
       (redirect_std_to_path p append st).1 = Except.ok () ∧
       (redirect_std_to_path p append st).2.table STDOUT_FILENO = some st.nextObj ∧
       (redirect_std_to_path p append st).2.table STDERR_FILENO = some st.nextObj ∧
       (redirect_std_to_path p append st).2.table st.nextFd = some st.nextObj ∧
       (redirect_std_to_path p append st).2.nextFd = st.nextFd + 1) := by
  have htab1 : st1.table st.nextFd = some st.nextObj := by
    rw [htable]; simp [updateFd]
  have hfd : st.nextFd < st.maxFd := by
    by_contra hc
    rw [openPath_fail_emfile (stdToPathOptions append) p st (not_lt.mp hc)] at hopen
    simp at hopen
  refine ⟨?_, ?_, ?_⟩
  · intro h1
    have hred := rstp_after_open p append st st1 st.nextFd hopen
    rw [redirect_fd_to_fd_err_range STDOUT_FILENO st.nextFd st1 st.nextObj htab1
        (Or.inr (by rw [hmax]; exact h1))] at hred
    dsimp only at hred
    rw [hred]
    dsimp only
    refine ⟨rfl, ?_, ?_⟩
    · have hlt : st.nextFd < (1 : Int) := lt_of_lt_of_le hfd h1
      have hne2 : STDERR_FILENO ≠ st.nextFd := by
        intro h
        rw [← h] at hlt
        exact absurd hlt (by decide)
      unfold closeFd updateFd
      dsimp only
      rw [if_neg hne2, htable]
      unfold updateFd
      rw [if_neg hne2]
    · unfold closeFd updateFd
      simp
  · intro h1 h2 hstdout
    have hne1 : st.nextFd ≠ STDOUT_FILENO := fun h => hstdout (h ▸ hfresh)
    have hred := rstp_after_open p append st st1 st.nextFd hopen
    rw [redirect_fd_to_fd_ok STDOUT_FILENO st.nextFd st1 st.nextObj htab1 (by decide)
        (by rw [hmax]; exact h1)] at hred
    dsimp only at hred
    have htab2 : ({ st1 with
        table := updateFd st1.table STDOUT_FILENO (some st.nextObj) } : SysState).table
          st.nextFd = some st.nextObj := by
      dsimp only
      unfold updateFd
      rw [if_neg hne1]
      exact htab1
    rw [redirect_fd_to_fd_err_range STDERR_FILENO st.nextFd
        ({ st1 with table := updateFd st1.table STDOUT_FILENO (some st.nextObj) }) st.nextObj
        htab2 (Or.inr (by show st1.maxFd ≤ (2 : Int); rw [hmax]; exact h2))] at hred
    dsimp only at hred
    rw [hred]
    dsimp only
    refine ⟨rfl, ?_⟩
    unfold closeFd updateFd
    dsimp only
    rw [if_neg (fun h => hne1 h.symm)]
    simp
  · intro h2
    have hred := rstp_after_open p append st st1 st.nextFd hopen
    rw [redirect_fd_to_fd_ok STDOUT_FILENO st.nextFd st1 st.nextObj htab1 (by decide)
        (by rw [hmax]; exact lt_trans one_lt_two h2)] at hred
    dsimp only at hred
    have htab2 : ({ st1 with
        table := updateFd st1.table STDOUT_FILENO (some st.nextObj) } : SysState).table
          st.nextFd = some st.nextObj := by
      dsimp only
      unfold updateFd
      split
      · rfl
      · exact htab1
    rw [redirect_fd_to_fd_ok STDERR_FILENO st.nextFd
        ({ st1 with table := updateFd st1.table STDOUT_FILENO (some st.nextObj) }) st.nextObj
        htab2 (by decide) (by show st1.maxFd > (2 : Int); rw [hmax]; exact h2)] at hred
    dsimp only at hred
    rw [hred]
    dsimp only
    refine ⟨rfl, ?_, ?_, ?_, hnext⟩
    · unfold updateFd
      rw [if_neg (by decide : STDOUT_FILENO ≠ STDERR_FILENO)]
      simp
    · unfold updateFd
      simp
    · unfold updateFd
      split
      · rfl
      · split
        · rfl
        · rw [htable]
          unfold updateFd
          simp

/-- C5: `redirect_std_to_path` opens the path once; if the open fails nothing is
redirected; if the stdout redirect fails, stderr is never attempted and the opened
descriptor is closed; if stdout succeeds and stderr fails, stdout remains
redirected; if both succeed, both standard streams alias the single opened object,
whose descriptor is forgotten (left open) after exactly one allocation. -/
theorem redirect_std_sequencing (p : Nat) (append : Bool) (st : SysState)
    (hfresh : st.table st.nextFd = none) :
    (st.maxFd ≤ st.nextFd →
       (redirect_std_to_path p append st).1 = Except.error EMFILE ∧
       ∀ e, (redirect_std_to_path p append st).2.table e = st.table e) ∧
    (st.nextFd < st.maxFd → st.maxFd ≤ 1 →
       (redirect_std_to_path p append st).1 = Except.error EBADF ∧
       (redirect_std_to_path p append st).2.table STDERR_FILENO = st.table STDERR_FILENO ∧
       (redirect_std_to_path p append st).2.table st.nextFd = none) ∧
    (st.nextFd < st.maxFd → 1 < st.maxFd → st.maxFd ≤ 2 → st.table STDOUT_FILENO ≠ none →
       (redirect_std_to_path p append st).1 = Except.error EBADF ∧
       (redirect_std_to_path p append st).2.table STDOUT_FILENO = some st.nextObj) ∧
    (st.nextFd < st.maxFd → 2 < st.maxFd →
       (redirect_std_to_path p append st).1 = Except.ok () ∧
       (redirect_std_to_path p append st).2.table STDOUT_FILENO = some st.nextObj ∧
       (redirect_std_to_path p append st).2.table STDERR_FILENO = some st.nextObj ∧
       (redirect_std_to_path p append st).2.table st.nextFd = some st.nextObj ∧
       (redirect_std_to_path p append st).2.nextFd = st.nextFd + 1) := by
  have hcore : ¬ st.maxFd ≤ st.nextFd →
      ((st.maxFd ≤ 1 →
         (redirect_std_to_path p append st).1 = Except.error EBADF ∧
         (redirect_std_to_path p append st).2.table STDERR_FILENO = st.table STDERR_FILENO ∧
         (redirect_std_to_path p append st).2.table st.nextFd = none) ∧
       (1 < st.maxFd → st.maxFd ≤ 2 → st.table STDOUT_FILENO ≠ none →
         (redirect_std_to_path p append st).1 = Except.error EBADF ∧
         (redirect_std_to_path p append st).2.table STDOUT_FILENO = some st.nextObj) ∧
       (2 < st.maxFd →
         (redirect_std_to_path p append st).1 = Except.ok () ∧
         (redirect_std_to_path p append st).2.table STDOUT_FILENO = some st.nextObj ∧
         (redirect_std_to_path p append st).2.table STDERR_FILENO = some st.nextObj ∧
         (redirect_std_to_path p append st).2.table st.nextFd = some st.nextObj ∧
         (redirect_std_to_path p append st).2.nextFd = st.nextFd + 1)) := by
    intro hm
    cases hfs : st.fs.lookup p with
    | some c =>
        exact rstp_core p append st _
          (openPath_ok_existing (stdToPathOptions append) p st c hfs hm) rfl rfl rfl hfresh
    | none =>
        exact rstp_core p append st _
          (openPath_ok_absent (stdToPathOptions append) p st hfs rfl hm) rfl rfl rfl hfresh
  refine ⟨?_, fun hfd h1 => (hcore (not_le.mpr hfd)).1 h1,
          fun hfd h1 h2 hso => (hcore (not_le.mpr hfd)).2.1 h1 h2 hso,
          fun hfd h2 => (hcore (not_le.mpr hfd)).2.2 h2⟩
  intro hm
  rw [rstp_open_err p append st EMFILE _ (openPath_fail_emfile _ p st hm)]
  exact ⟨rfl, fun e => rfl⟩

/-- Witness for C5: the all-success branch at a concrete state. -/
theorem redirect_std_sequencing_witness :
    stB.table stB.nextFd = none ∧
    (redirect_std_to_path 0 true stB).1 = Except.ok () ∧
    (redirect_std_to_path 0 true stB).2.table STDOUT_FILENO = some stB.nextObj ∧
    (redirect_std_to_path 0 true stB).2.table STDERR_FILENO = some stB.nextObj ∧
    (redirect_std_to_path 0 true stB).2.table stB.nextFd = some stB.nextObj ∧
    (redirect_std_to_path 0 true stB).2.nextFd = stB.nextFd + 1 :=
  have h := (redirect_std_sequencing 0 true stB (by decide)).2.2.2 (by decide) (by decide)
  ⟨by decide, h.1, h.2.1, h.2.2.1, h.2.2.2.1, h.2.2.2.2⟩

theorem rstp_drop_core (p : Nat) (append : Bool) (st st1 : SysState)
    (hopen : openPath (stdToPathOptions append) p st = (Except.ok st.nextFd, st1))
    (htable : st1.table = updateFd st.table st.nextFd (some st.nextObj))
    (hmax : st1.maxFd = st.maxFd)
    (h2 : (1 : Int) < st.maxFd) (h3 : st.maxFd ≤ 2) :
    (redirect_std_to_path p append st).1 = Except.error EBADF ∧
    (redirect_std_to_path p append st).2.table st.nextFd = none := by
  have htab1 : st1.table st.nextFd = some st.nextObj := by
    rw [htable]; simp [updateFd]
  have hred := rstp_after_open p append st st1 st.nextFd hopen
  rw [redirect_fd_to_fd_ok STDOUT_FILENO st.nextFd st1 st.nextObj htab1 (by decide)
      (by rw [hmax]; exact h2)] at hred
  dsimp only at hred
  have htab2 : ({ st1 with
      table := updateFd st1.table STDOUT_FILENO (some st.nextObj) } : SysState).table
        st.nextFd = some st.nextObj := by
    dsimp only
    unfold updateFd
    split
    · rfl
    · exact htab1
  rw [redirect_fd_to_fd_err_range STDERR_FILENO st.nextFd
      ({ st1 with table := updateFd st1.table STDOUT_FILENO (some st.nextObj) }) st.nextObj
      htab2 (Or.inr (by show st1.maxFd ≤ (2 : Int); rw [hmax]; exact h3))] at hred
  dsimp only at hred
  rw [hred]
  dsimp only
  refine ⟨rfl, ?_⟩
  unfold closeFd updateFd
  simp

/-- C9: when the stdout redirect succeeds but the stderr redirect fails, the
freshly opened file is dropped — its descriptor is closed, not forgotten; the
`mem::forget` is reached only when both redirects succeed. -/
theorem redirect_std_drop_on_stderr_failure (p : Nat) (append : Bool) (st : SysState)
    (h1 : st.nextFd < st.maxFd) (h2 : (1 : Int) < st.maxFd) (h3 : st.maxFd ≤ 2) :
    (redirect_std_to_path p append st).1 = Except.error EBADF ∧
    (redirect_std_to_path p append st).2.table st.nextFd = none := by
  cases hfs : st.fs.lookup p with
  | some c =>
      exact rstp_drop_core p append st _
        (openPath_ok_existing (stdToPathOptions append) p st c hfs (not_le.mpr h1)) rfl rfl h2 h3
  | none =>
      exact rstp_drop_core p append st _
        (openPath_ok_absent (stdToPathOptions append) p st hfs rfl (not_le.mpr h1)) rfl rfl h2 h3

/-- Witness for C9: descriptor limit 2 makes the stderr `dup2` fail after the
stdout one succeeded; the opened descriptor 0 ends up closed. -/
theorem redirect_std_drop_on_stderr_failure_witness :
    (redirect_std_to_path 9 true stE).1 = Except.error EBADF ∧
    (redirect_std_to_path 9 true stE).2.table stE.nextFd = none :=
  redirect_std_drop_on_stderr_failure 9 true stE (by decide) (by decide) (by decide)

theorem redirect_fd_to_fd_err_errno (src dst : Fd) (st : SysState) :
    ∀ err, (redirect_fd_to_fd src dst st).1 = Except.error err →
      err = (redirect_fd_to_fd src dst st).2.errno := by
  intro err h
  unfold redirect_fd_to_fd at h ⊢
  dsimp only at h ⊢
  split at h
  · rename_i hc
    rw [if_pos hc]
    simp only [Except.error.injEq] at h
    exact h.symm
  · simp at h

theorem crtRedirectFdToFd_err (src dst : Int) (st : CrtState) (e : Int)
    (h : (crtRedirectFdToFd src dst st).1 = Except.error e) :
    e = (crtRedirectFdToFd src dst st).2.errno := by
  unfold crtRedirectFdToFd at h ⊢
  dsimp only at h ⊢
  split at h
  · rename_i hc
    rw [if_pos hc]
    simp only [Except.error.injEq] at h
    exact h.symm
  · simp at h

theorem redirect_using_setstdhandle_err (slot : Int) (destination : WinEndpoint)
    (st : WinConsoleState) :
    ∀ err, (redirect_using_setstdhandle slot destination st).1 = Except.error err →
      err = (redirect_using_setstdhandle slot destination st).2.lastError := by
  intro err h
  unfold redirect_using_setstdhandle at h ⊢
  dsimp only at h ⊢
  split at h
  · rename_i hc
    rw [if_pos hc]
    simp only [Except.error.injEq] at h
    exact h.symm
  · simp at h

theorem winFileRedirect_props (self : WinFile) (destination : WinEndpoint) (st : CrtState) :
    (∀ err, (winFileRedirect self destination st).2.1 = Except.error err →
       (winFileRedirect self destination st).1 = self ∧
       err = (winFileRedirect self destination st).2.2.errno) ∧
    ((winFileRedirect self destination st).2.1 = Except.ok () →
       ∃ h, (winFileRedirect self destination st).1 = { self with rawHandle := h }) := by
  unfold winFileRedirect
  dsimp only
  split
  · refine ⟨fun err h => ?_, fun h => ?_⟩
    · simp only [Except.error.injEq] at h
      subst h
      exact ⟨rfl, rfl⟩
    · simp at h
  · split
    · refine ⟨fun err h => ?_, fun h => ?_⟩
      · simp only [Except.error.injEq] at h
        subst h
        exact ⟨rfl, rfl⟩
      · simp at h
    · split
      · rename_i e heq
        refine ⟨fun err h => ?_, fun h => ?_⟩
        · simp only [Except.error.injEq] at h
          subst h
          exact ⟨rfl, crtRedirectFdToFd_err _ _ _ e heq⟩
        · simp at h
      · split
        · refine ⟨fun err h => ?_, fun h => ?_⟩
          · simp only [Except.error.injEq] at h
            subst h
            exact ⟨rfl, rfl⟩
          · simp at h
        · refine ⟨fun err h => ?_, fun h => ?_⟩
          · simp at h
          · exact ⟨_, rfl⟩

/-- C6: in the Windows CRT backend for `File`, any failing step (bridging either
handle, the descriptor duplication, or retrieving the new handle) surfaces the OS
errno immediately and leaves the `File` value — in particular its embedded native
handle — unmodified; the in-place patch happens only on the all-success path. -/
theorem win_file_redirect_no_patch_on_error (self : WinFile) (destination : WinEndpoint)
    (st : CrtState) :
    (∀ err, (winFileRedirect self destination st).2.1 = Except.error err →
       (winFileRedirect self destination st).1 = self ∧
       err = (winFileRedirect self destination st).2.2.errno) ∧
    ((winFileRedirect self destination st).2.1 = Except.ok () →
       ∃ h, (winFileRedirect self destination st).1 = { self with rawHandle := h }) :=
  winFileRedirect_props self destination st

/-- Witness for C6: an invalid source handle makes the first bridge fail with
EBADF and the `File` is returned byte-for-byte unchanged. -/
theorem win_file_redirect_no_patch_on_error_witness :
    (winFileRedirect ⟨5, 0⟩ ⟨6, 0⟩ crt0).2.1 = Except.error EBADF ∧
    (winFileRedirect ⟨5, 0⟩ ⟨6, 0⟩ crt0).1 = (⟨5, 0⟩ : WinFile) :=
  ⟨by rfl, ((win_file_redirect_no_patch_on_error ⟨5, 0⟩ ⟨6, 0⟩ crt0).1 EBADF (by rfl)).1⟩

theorem rtp_err_core (self : UnixEndpoint) (p : Nat) (st st1 : SysState)
    (hopen : openPath pathAdapterOptions p st = (Except.ok st.nextFd, st1))
    (htable : st1.table = updateFd st.table st.nextFd (some st.nextObj))
    (hmax : st1.maxFd = st.maxFd) :
    ∀ err, (redirectToPath self p st).2.1 = Except.error err →
      err = (redirectToPath self p st).2.2.errno := by
  have htab1 : st1.table st.nextFd = some st.nextObj := by
    rw [htable]; simp [updateFd]
  have hred := rtp_after_open self p st st1 st.nextFd hopen
  by_cases h1 : 0 ≤ as_raw_fd self ∧ as_raw_fd self < st.maxFd
  · rw [redirect_fd_to_fd_ok (as_raw_fd self) st.nextFd st1 st.nextObj htab1 h1.1
        (by rw [hmax]; exact h1.2)] at hred
    dsimp only at hred
    rw [hred]
    intro err h
    simp at h
  · have h2 : as_raw_fd self < 0 ∨ st1.maxFd ≤ as_raw_fd self := by
      rw [hmax]
      rcases not_and_or.mp h1 with h | h
      · exact Or.inl (not_le.mp h)
      · exact Or.inr (not_lt.mp h)
    rw [redirect_fd_to_fd_err_range (as_raw_fd self) st.nextFd st1 st.nextObj htab1 h2] at hred
    dsimp only at hred
    rw [hred]
    intro err h
    simp only [Except.error.injEq] at h
    subst h
    rfl

theorem rstp_err_core (p : Nat) (append : Bool) (st st1 : SysState)
    (hopen : openPath (stdToPathOptions append) p st = (Except.ok st.nextFd, st1))
    (htable : st1.table = updateFd st.table st.nextFd (some st.nextObj))
    (hmax : st1.maxFd = st.maxFd) :
    ∀ err, (redirect_std_to_path p append st).1 = Except.error err →
      err = (redirect_std_to_path p append st).2.errno := by
  have htab1 : st1.table st.nextFd = some st.nextObj := by
    rw [htable]; simp [updateFd]
  have hred := rstp_after_open p append st st1 st.nextFd hopen
  by_cases h1 : (1 : Int) < st.maxFd
  · rw [redirect_fd_to_fd_ok STDOUT_FILENO st.nextFd st1 st.nextObj htab1 (by decide)
        (by rw [hmax]; exact h1)] at hred
    dsimp only at hred
    have htab2 : ({ st1 with
        table := updateFd st1.table STDOUT_FILENO (some st.nextObj) } : SysState).table
          st.nextFd = some st.nextObj := by
      dsimp only
      unfold updateFd
      split
      · rfl
      · exact htab1
    by_cases h2 : (2 : Int) < st.maxFd
    · rw [redirect_fd_to_fd_ok STDERR_FILENO st.nextFd
          ({ st1 with table := updateFd st1.table STDOUT_FILENO (some st.nextObj) }) st.nextObj
          htab2 (by decide) (by show (2 : Int) < st1.maxFd; rw [hmax]; exact h2)] at hred
      dsimp only at hred
      rw [hred]
      intro err h
      simp at h
    · rw [redirect_fd_to_fd_err_range STDERR_FILENO st.nextFd
          ({ st1 with table := updateFd st1.table STDOUT_FILENO (some st.nextObj) }) st.nextObj
          htab2 (Or.inr (by show st1.maxFd ≤ (2 : Int); rw [hmax]; exact not_lt.mp h2))] at hred
      dsimp only at hred
      rw [hred]
      intro err h
      simp only [Except.error.injEq] at h
      subst h
      rfl
  · rw [redirect_fd_to_fd_err_range STDOUT_FILENO st.nextFd st1 st.nextObj htab1
        (Or.inr (by show st1.maxFd ≤ (1 : Int); rw [hmax]; exact not_lt.mp h1))] at hred
    dsimp only at hred
    rw [hred]
    intro err h
    simp only [Except.error.injEq] at h
    subst h
    rfl

/-- C7: every error returned by any redirect operation — `redirect_fd_to_fd`, the
path adapter, `redirect_std_to_path`, the Windows CRT `File` backend and
`redirect_using_setstdhandle` — is exactly the OS's native error code as recorded
by the failing call (errno / last-error), with no translation. -/
theorem redirect_errors_verbatim :
    (∀ src dst st err, (redirect_fd_to_fd src dst st).1 = Except.error err →
       err = (redirect_fd_to_fd src dst st).2.errno) ∧
    (∀ self p st err, (redirectToPath self p st).2.1 = Except.error err →
       err = (redirectToPath self p st).2.2.errno) ∧
    (∀ p append st err, (redirect_std_to_path p append st).1 = Except.error err →
       err = (redirect_std_to_path p append st).2.errno) ∧
    (∀ self dst st err, (winFileRedirect self dst st).2.1 = Except.error err →
       err = (winFileRedirect self dst st).2.2.errno) ∧
    (∀ slot dst st err, (redirect_using_setstdhandle slot dst st).1 = Except.error err →
       err = (redirect_using_setstdhandle slot dst st).2.lastError) := by
  refine ⟨redirect_fd_to_fd_err_errno, ?_, ?_,
          fun self dst st err h => ((winFileRedirect_props self dst st).1 err h).2,
          redirect_using_setstdhandle_err⟩
  · intro self p st err h
    by_cases hm : st.maxFd ≤ st.nextFd
    · rw [rtp_open_err self p st EMFILE _ (openPath_fail_emfile _ p st hm)] at h ⊢
      simp only [Except.error.injEq] at h
      subst h
      rfl
    · cases hfs : st.fs.lookup p with
      | some c =>
          exact rtp_err_core self p st _
            (openPath_ok_existing pathAdapterOptions p st c hfs hm) rfl rfl err h
      | none =>
          exact rtp_err_core self p st _
            (openPath_ok_absent pathAdapterOptions p st hfs rfl hm) rfl rfl err h
  · intro p append st err h
    by_cases hm : st.maxFd ≤ st.nextFd
    · rw [rstp_open_err p append st EMFILE _ (openPath_fail_emfile _ p st hm)] at h ⊢
      simp only [Except.error.injEq] at h
      subst h
      rfl
    · cases hfs : st.fs.lookup p with
      | some c =>
          exact rstp_err_core p append st _
            (openPath_ok_existing (stdToPathOptions append) p st c hfs hm) rfl rfl err h
      | none =>
          exact rstp_err_core p append st _
            (openPath_ok_absent (stdToPathOptions append) p st hfs rfl hm) rfl rfl err h

/-- Witness for C7: `dup2` onto a closed descriptor returns EBADF, which is
exactly the errno of the final state. -/
theorem redirect_errors_verbatim_witness :
    (redirect_fd_to_fd 1 0 stC).1 = Except.error EBADF ∧
    EBADF = (redirect_fd_to_fd 1 0 stC).2.errno :=
  ⟨by rfl, redirect_errors_verbatim.1 1 0 stC EBADF (by rfl)⟩

/-- C8: the Windows native backend sets the corresponding process-wide standard
handle slot directly to the destination's raw handle, changes nothing else (no
duplication, no bridging, no patching of the stream object), and returns an OS
error exactly when `SetStdHandle` returns zero. -/
theorem set_std_handle_redirect_spec (destination : WinEndpoint) (st : WinConsoleState) :
    (stdoutRedirectWin destination st).1 = Except.ok () ∧
    (stdoutRedirectWin destination st).2.stdOutputSlot = as_raw_handle destination ∧
    (stdoutRedirectWin destination st).2.stdErrorSlot = st.stdErrorSlot ∧
    (stdoutRedirectWin destination st).2.stdInputSlot = st.stdInputSlot ∧
    (stdoutRedirectWin destination st).2.lastError = st.lastError ∧
    (stderrRedirectWin destination st).1 = Except.ok () ∧
    (stderrRedirectWin destination st).2.stdErrorSlot = as_raw_handle destination ∧
    (stderrRedirectWin destination st).2.stdOutputSlot = st.stdOutputSlot ∧
    (stderrRedirectWin destination st).2.stdInputSlot = st.stdInputSlot ∧
    (stderrRedirectWin destination st).2.lastError = st.lastError ∧
    (∀ slot, (∃ err, (redirect_using_setstdhandle slot destination st).1 = Except.error err) ↔
       (SetStdHandle slot (as_raw_handle destination) st).1 = 0) := by
  refine ⟨by rfl, by rfl, by rfl, by rfl, by rfl, by rfl, by rfl, by rfl, by rfl, by rfl, ?_⟩
  intro slot
  unfold redirect_using_setstdhandle
  dsimp only
  by_cases hz : (SetStdHandle slot (as_raw_handle destination) st).1 = 0
  · simp [hz]
  · simp [hz]

/-- Witness for C8 at a concrete console state and destination handle 44. -/
theorem set_std_handle_redirect_spec_witness :
    (stdoutRedirectWin ⟨44, 0⟩ wcs0).1 = Except.ok () ∧
    (stdoutRedirectWin ⟨44, 0⟩ wcs0).2.stdOutputSlot = 44 ∧
    (stderrRedirectWin ⟨44, 0⟩ wcs0).1 = Except.ok () ∧
    (stderrRedirectWin ⟨44, 0⟩ wcs0).2.stdErrorSlot = 44 :=
  have h := set_std_handle_redirect_spec ⟨44, 0⟩ wcs0
  ⟨h.1, h.2.1, h.2.2.2.2.2.1, h.2.2.2.2.2.2.1⟩

end IoRedirect
